import Mathlib

/-!
# Buffer_Free_1: buffer-free rendering demo (`main.cpp`)

A shallow embedding of the program in `src/Buffer_Free_1/Buffer_Free_1/main.cpp`:

* the two GLSL shaders held in `vertexSource` and `fragmentSource`, as functions of the
  built-in inputs they read (`gl_VertexID`, `gl_PrimitiveID`, `gl_FragCoord`);
* the host functions `initShaders`, `init`, `draw`, `pollEvents`, `cleanUp` and `main`, as
  transformers of an explicit program state that also records the calls made to OpenGL and SFML.

GLSL `float` values are embedded as rationals with exact arithmetic: every `float` is a
rational number, and rounding is not modelled.
-/

namespace BufferFree

/-! ## Shader values -/

/-- GLSL `vec4`, components in the order `x y z w` (for a colour: red, green, blue, alpha). -/
structure Vec4 where
  x : ℚ
  y : ℚ
  z : ℚ
  w : ℚ
  deriving DecidableEq, Repr

/-- GLSL built-in `mod(x, y)` on `float`: `x - y * floor(x / y)`. -/
def glslMod (x y : ℚ) : ℚ := x - y * (⌊x / y⌋ : ℤ)

/-- GLSL conversion of an `int` to `float` (implicit for the arguments of `mod` and `vec4`). -/
def toFloat (i : ℤ) : ℚ := (i : ℚ)

/-- The shader in `vertexSource`: `main()` writes
`gl_Position = vec4(mod(gl_VertexID, 2), mod(gl_VertexID / 2, 2), 0.0, 1.0)`.
`gl_VertexID` is an `int`, so `gl_VertexID / 2` is the integer division. -/
def vertexMain (gl_VertexID : ℤ) : Vec4 :=
  { x := glslMod (toFloat gl_VertexID) (toFloat 2)
    y := glslMod (toFloat (Int.tdiv gl_VertexID 2)) (toFloat 2)
    z := 0.0
    w := 1.0 }

/-- The local `verticalStripes` of the fragment shader:
`mod(gl_FragCoord.y, 50.0) * 0.02`. -/
def verticalStripes (gl_FragCoord : Vec4) : ℚ :=
  glslMod gl_FragCoord.y 50.0 * 0.02

/-- The stripe value as a function of the window coordinate `y` alone
(`verticalStripes` reads no other component of `gl_FragCoord`). -/
def stripe (y : ℚ) : ℚ := verticalStripes { x := 0, y := y, z := 0, w := 1 }

/-- The window pixel a fragment belongs to. In OpenGL window coordinates pixel `(i, j)` is the
unit square `[i, i+1) × [j, j+1)`, and the `gl_FragCoord.xy` of a fragment of that pixel lies
inside it: at the pixel centre `(i + 1/2, j + 1/2)` unless the shader redeclares `gl_FragCoord`
with `pixel_center_integer` (this one does not), or at another location of the pixel when
multisampling (`init` asks for `antialiasingLevel = 2`). -/
def pixelOf (gl_FragCoord : Vec4) : ℤ × ℤ := (⌊gl_FragCoord.x⌋, ⌊gl_FragCoord.y⌋)

/-! ## Primitive assembly (`glDrawArrays`) -/

/-- The primitive modes of `glDrawArrays` that assemble triangles. -/
inductive DrawMode
  | GL_TRIANGLES
  | GL_TRIANGLE_STRIP
  deriving DecidableEq, Repr

/-- A triangle: its three vertices, in the order they were assembled. -/
abbrev Tri (α : Type) := α × α × α

/-- `GL_TRIANGLES`: every three vertices form a triangle. -/
def listTriangles {α : Type} : List α → List (Tri α)
  | a :: b :: c :: rest => (a, b, c) :: listTriangles rest
  | _ => []

/-- `GL_TRIANGLE_STRIP`: after the first triangle, each further vertex forms a triangle with
the last two vertices of the triangle before it (the comment in `draw`: "sharing the last 2
vertices of a triangle with the next triangle"). -/
def stripTriangles {α : Type} : List α → List (Tri α)
  | a :: b :: c :: rest => (a, b, c) :: stripTriangles (b :: c :: rest)
  | _ => []

/-- The triangles a draw mode assembles from the vertices of one draw call. -/
def assemble {α : Type} (mode : DrawMode) (vs : List α) : List (Tri α) :=
  match mode with
  | .GL_TRIANGLES => listTriangles vs
  | .GL_TRIANGLE_STRIP => stripTriangles vs

/-- The values of `gl_VertexID` in `glDrawArrays(mode, first, count)`:
`first, first + 1, ..., first + count - 1`. -/
def vertexIDs (first count : ℕ) : List ℤ :=
  (List.range count).map (fun k => ((first + k : ℕ) : ℤ))

/-- The triangles of `glDrawArrays(mode, first, count)` as vertex indices; the position of a
triangle in the list is its `gl_PrimitiveID`. -/
def drawIndices (mode : DrawMode) (first count : ℕ) : List (Tri ℤ) :=
  assemble mode (vertexIDs first count)

/-- The triangles of `glDrawArrays(mode, first, count)` with the vertex stage `vertexMain`
bound: the clip-space positions of their vertices. -/
def drawPrimitives (mode : DrawMode) (first count : ℕ) : List (Tri Vec4) :=
  assemble mode ((vertexIDs first count).map vertexMain)

/-- The point `(x / w, y / w)` of a clip-space position. -/
def ndc (v : Vec4) : ℚ × ℚ := (v.x / v.w, v.y / v.w)

/-- Twice the signed area of the triangle `a b p`. -/
def edgeFun (a b p : ℚ × ℚ) : ℚ :=
  (b.1 - a.1) * (p.2 - a.2) - (b.2 - a.2) * (p.1 - a.1)

/-- The point `p` lies in the closed triangle `t`: it is on the same side of the three edges. -/
def covers (t : Tri Vec4) (p : ℚ × ℚ) : Prop :=
  let a := ndc t.1
  let b := ndc t.2.1
  let c := ndc t.2.2
  (0 ≤ edgeFun a b p ∧ 0 ≤ edgeFun b c p ∧ 0 ≤ edgeFun c a p) ∨
  (edgeFun a b p ≤ 0 ∧ edgeFun b c p ≤ 0 ∧ edgeFun c a p ≤ 0)

instance (t : Tri Vec4) (p : ℚ × ℚ) : Decidable (covers t p) := by
  unfold covers
  infer_instance

/-- The viewport transformation of the 800x600 window that `init` creates (the viewport of a
new context is the whole window): normalised device coordinates in `[-1, 1]` to window
coordinates. -/
def windowCoord (p : ℚ × ℚ) : ℚ × ℚ := ((p.1 + 1) * (800 / 2), (p.2 + 1) * (600 / 2))

/-! ## SFML window -/

/-- The enumeration `sf::Event::EventType`. -/
inductive EventType
  | Closed
  | Resized
  | LostFocus
  | GainedFocus
  | TextEntered
  | KeyPressed
  | KeyReleased
  | MouseWheelMoved
  | MouseWheelScrolled
  | MouseButtonPressed
  | MouseButtonReleased
  | MouseMoved
  | MouseEntered
  | MouseLeft
  | JoystickButtonPressed
  | JoystickButtonReleased
  | JoystickMoved
  | JoystickConnected
  | JoystickDisconnected
  | TouchBegan
  | TouchMoved
  | TouchEnded
  | SensorChanged
  deriving DecidableEq, Repr

/-- An `sf::Event`; `pollEvents` reads only its member `type`. -/
structure Event where
  type : EventType
  deriving DecidableEq, Repr

/-- The global `sf::Window window`: whether it is open, and its queue of pending events
(oldest first). -/
structure Window where
  isOpen : Bool
  events : List Event
  deriving DecidableEq, Repr

/-- `sf::Window::create`: the window is open, with no pending event. -/
def Window.create : Window := { isOpen := true, events := [] }

/-- `sf::Window::close`: the window is closed and its resources, the event queue among them,
are destroyed. -/
def Window.close (_w : Window) : Window := { isOpen := false, events := [] }

/-- `sf::Window::pollEvent`: pops the oldest pending event, if any; has no effect and
returns `false` (here `none`) on a closed window or an empty queue. -/
def Window.pollEvent (w : Window) : Option Event × Window :=
  if w.isOpen then
    match w.events with
    | [] => (none, w)
    | e :: rest => (some e, { w with events := rest })
  else (none, w)

/-- The operating system queues new events on the window; a closed window receives none. -/
def Window.deliver (w : Window) (evs : List Event) : Window :=
  if w.isOpen then { w with events := w.events ++ evs } else w

/-! ## OpenGL context -/

/-- The shader types passed to `glCreateShader`. -/
inductive ShaderKind
  | GL_VERTEX_SHADER
  | GL_FRAGMENT_SHADER
  deriving DecidableEq, Repr

/-- The two source texts of the program, the globals `vertexSource` and `fragmentSource`. -/
inductive ShaderText
  | vertexSource
  | fragmentSource
  deriving DecidableEq, Repr

/-- A shader object: its name, its source text if one was set, and `GL_COMPILE_STATUS`. -/
structure ShaderObject where
  name : ℕ
  kind : ShaderKind
  source : Option ShaderText
  compileStatus : Bool
  deriving DecidableEq, Repr

/-- A program object: its name, the names of the attached shaders, and `GL_LINK_STATUS`. -/
structure ProgramObject where
  name : ℕ
  attached : List ℕ
  linkStatus : Bool
  deriving DecidableEq, Repr

/-- The state of the OpenGL context that the program touches. `deleted` holds the names
passed to `glDeleteShader` and `glDeleteProgram`. -/
structure GLContext where
  nextName : ℕ
  shaders : List ShaderObject
  programs : List ProgramObject
  currentProgram : ℕ
  deleted : List ℕ
  deriving DecidableEq, Repr

/-- The context right after its creation: no object, no current program. -/
def GLContext.fresh : GLContext :=
  { nextName := 1, shaders := [], programs := [], currentProgram := 0, deleted := [] }

/-- `GL_COMPILE_STATUS` of the shader named `n` (`false` when there is no such shader). -/
def GLContext.compiled (g : GLContext) (n : ℕ) : Bool :=
  match g.shaders.find? (fun o => o.name == n) with
  | some o => o.compileStatus
  | none => false

/-- `GL_LINK_STATUS` of the program named `n` (`false` when there is no such program). -/
def GLContext.linked (g : GLContext) (n : ℕ) : Bool :=
  match g.programs.find? (fun o => o.name == n) with
  | some o => o.linkStatus
  | none => false

/-- What the program does not decide: whether the driver accepts each shader text, whether it
links the two compiled shaders, and the events the operating system delivers to the window
before each call of `pollEvents` (`events k` for the `k`-th call, `k = 1, 2, ...`). -/
structure Env where
  vertexCompiles : Bool
  fragmentCompiles : Bool
  linkSucceeds : Bool
  events : ℕ → List Event

/-- The driver's verdict on a source text. -/
def Env.compiles (env : Env) : Option ShaderText → Bool
  | some .vertexSource => env.vertexCompiles
  | some .fragmentSource => env.fragmentCompiles
  | none => false

/-! ## Program state and call log -/

/-- The calls that `main.cpp` makes to SFML and OpenGL. -/
inductive Call
  | windowCreate (width height : ℕ) (depthBits stencilBits antialiasingLevel : ℕ)
  | glewInit
  | glCreateShader (kind : ShaderKind)
  | glShaderSource (shader : ℕ) (text : ShaderText)
  | glCompileShader (shader : ℕ)
  | glCreateProgram
  | glAttachShader (program shader : ℕ)
  | glBindFragDataLocation (program color : ℕ)
  | glLinkProgram (program : ℕ)
  | glUseProgram (program : ℕ)
  | glClearColor
  | glClear
  | glDrawArrays (mode : DrawMode) (first count : ℕ)
  | windowDisplay
  | windowPollEvent (result : Option Event)
  | windowClose
  | glDeleteProgram (program : ℕ)
  | glDeleteShader (shader : ℕ)
  deriving DecidableEq, Repr

/-- What a call of `glDrawArrays` found: whether the window was open, the current program,
whether the global `shaderProgram` was linked and whether it had been passed to
`glDeleteProgram`, and the triangles rendered (`none` when no linked program is current:
the result of such a draw is undefined). -/
structure DrawRecord where
  windowOpen : Bool
  currentProgram : ℕ
  programLinked : Bool
  programDeleted : Bool
  primitives : Option (List (Tri Vec4))
  deriving DecidableEq

/-- The globals of `main.cpp` (`window`, `vertexShader`, `fragmentShader`, `shaderProgram`),
the OpenGL context, and the record of the run: the calls made so far, what each draw call
found, the number of calls of `pollEvents` that returned, and the number of iterations of the
loop of `main` that were started. -/
structure State where
  window : Window
  vertexShader : ℕ
  fragmentShader : ℕ
  shaderProgram : ℕ
  gl : GLContext
  log : List Call
  draws : List DrawRecord
  polls : ℕ
  iterations : ℕ
  deriving DecidableEq

/-- The state at program start: the window not yet created, the handles zero. -/
def State.start : State :=
  { window := { isOpen := false, events := [] }
    vertexShader := 0, fragmentShader := 0, shaderProgram := 0
    gl := GLContext.fresh, log := [], draws := [], polls := 0, iterations := 0 }

/-- Appends a call to the log. -/
def State.record (s : State) (c : Call) : State := { s with log := s.log ++ [c] }

/-! ## OpenGL calls -/

/-- `glCreateShader(kind)`: a new shader object, without source and not compiled. -/
def glCreateShader (kind : ShaderKind) (s : State) : ℕ × State :=
  (s.gl.nextName,
    { s.record (.glCreateShader kind) with
      gl := { s.gl with
        nextName := s.gl.nextName + 1
        shaders := s.gl.shaders ++
          [{ name := s.gl.nextName, kind := kind, source := none, compileStatus := false }] } })

/-- `glShaderSource(shader, 1, &text, NULL)`: sets the source text of the shader. -/
def glShaderSource (shader : ℕ) (text : ShaderText) (s : State) : State :=
  { s.record (.glShaderSource shader text) with
    gl := { s.gl with
      shaders := s.gl.shaders.map
        (fun o => if o.name = shader then { o with source := some text } else o) } }

/-- `glCompileShader(shader)`: sets `GL_COMPILE_STATUS` to the driver's verdict on the
source text. -/
def glCompileShader (env : Env) (shader : ℕ) (s : State) : State :=
  { s.record (.glCompileShader shader) with
    gl := { s.gl with
      shaders := s.gl.shaders.map
        (fun o => if o.name = shader then { o with compileStatus := env.compiles o.source }
          else o) } }

/-- `glCreateProgram()`: a new program object, nothing attached and not linked. -/
def glCreateProgram (s : State) : ℕ × State :=
  (s.gl.nextName,
    { s.record .glCreateProgram with
      gl := { s.gl with
        nextName := s.gl.nextName + 1
        programs := s.gl.programs ++
          [{ name := s.gl.nextName, attached := [], linkStatus := false }] } })

/-- `glAttachShader(program, shader)`. -/
def glAttachShader (program shader : ℕ) (s : State) : State :=
  { s.record (.glAttachShader program shader) with
    gl := { s.gl with
      programs := s.gl.programs.map
        (fun o => if o.name = program then { o with attached := o.attached ++ [shader] }
          else o) } }

/-- `glBindFragDataLocation(program, color, "outColor")`. -/
def glBindFragDataLocation (program color : ℕ) (s : State) : State :=
  s.record (.glBindFragDataLocation program color)

/-- `glLinkProgram(program)`: `GL_LINK_STATUS` becomes true when every attached shader is
compiled and the driver links them, false otherwise. -/
def glLinkProgram (env : Env) (program : ℕ) (s : State) : State :=
  { s.record (.glLinkProgram program) with
    gl := { s.gl with
      programs := s.gl.programs.map
        (fun o => if o.name = program then
            { o with linkStatus := o.attached.all s.gl.compiled && env.linkSucceeds }
          else o) } }

/-- `glUseProgram(program)`: makes a linked program current; for a program that is not
linked the call is an error (`GL_INVALID_OPERATION`) and the current program stays. -/
def glUseProgram (program : ℕ) (s : State) : State :=
  { s.record (.glUseProgram program) with
    gl := { s.gl with
      currentProgram :=
        if program = 0 then 0
        else if s.gl.linked program then program
        else s.gl.currentProgram } }

/-- `glClearColor(0.5f, 0.5f, 0.5f, 0.0f)`. -/
def glClearColor (s : State) : State := s.record .glClearColor

/-- `glClear(GL_COLOR_BUFFER_BIT | GL_DEPTH_BUFFER_BIT)`. -/
def glClear (s : State) : State := s.record .glClear

/-- `glDrawArrays(mode, first, count)`: renders the assembled triangles with the current
program. -/
def glDrawArrays (mode : DrawMode) (first count : ℕ) (s : State) : State :=
  { s.record (.glDrawArrays mode first count) with
    draws := s.draws ++
      [{ windowOpen := s.window.isOpen
         currentProgram := s.gl.currentProgram
         programLinked := s.gl.linked s.shaderProgram
         programDeleted := decide (s.shaderProgram ∈ s.gl.deleted)
         primitives :=
           if s.gl.currentProgram ≠ 0 ∧ s.gl.linked s.gl.currentProgram = true then
             some (drawPrimitives mode first count)
           else none }] }

/-- `glDeleteProgram(program)`. -/
def glDeleteProgram (program : ℕ) (s : State) : State :=
  { s.record (.glDeleteProgram program) with
    gl := { s.gl with deleted := s.gl.deleted ++ [program] } }

/-- `glDeleteShader(shader)`. -/
def glDeleteShader (shader : ℕ) (s : State) : State :=
  { s.record (.glDeleteShader shader) with
    gl := { s.gl with deleted := s.gl.deleted ++ [shader] } }

/-! ## The functions of `main.cpp` -/

/-- The function `initShaders`. -/
def initShaders (env : Env) (s : State) : State :=
  -- Compile the vertex shader
  let r := glCreateShader .GL_VERTEX_SHADER s
  let s := { r.2 with vertexShader := r.1 }
  let s := glShaderSource s.vertexShader .vertexSource s
  let s := glCompileShader env s.vertexShader s
  -- Compile the fragment shader
  let r := glCreateShader .GL_FRAGMENT_SHADER s
  let s := { r.2 with fragmentShader := r.1 }
  let s := glShaderSource s.fragmentShader .fragmentSource s
  let s := glCompileShader env s.fragmentShader s
  -- Combine shaders into a program, bind, link and use
  let r := glCreateProgram s
  let s := { r.2 with shaderProgram := r.1 }
  let s := glAttachShader s.shaderProgram s.vertexShader s
  let s := glAttachShader s.shaderProgram s.fragmentShader s
  let s := glBindFragDataLocation s.shaderProgram 0 s
  let s := glLinkProgram env s.shaderProgram s
  glUseProgram s.shaderProgram s

/-- The function `init`: creates the 800x600 window (24 depth bits, 8 stencil bits,
antialiasing level 2), initialises GLEW and compiles the shaders. -/
def init (env : Env) (s : State) : State :=
  let s := { s.record (.windowCreate 800 600 24 8 2) with window := Window.create }
  let s := s.record .glewInit
  initShaders env s

/-- The function `draw`. -/
def draw (s : State) : State :=
  let s := glClearColor s
  let s := glClear s
  let s := glDrawArrays .GL_TRIANGLE_STRIP 0 4 s
  s.record .windowDisplay

/-- The function `pollEvents`: `while (window.pollEvent(windowEvent))` with the `switch` on
`windowEvent.type` whose only case is `sf::Event::Closed`, calling `window.close()`. -/
def pollEvents (s : State) : State :=
  match h : s.window.pollEvent with
  | (none, w) => { s.record (.windowPollEvent none) with window := w, polls := s.polls + 1 }
  | (some e, w) =>
    match e.type with
    | .Closed =>
      pollEvents
        { (s.record (.windowPollEvent (some e))).record .windowClose with window := w.close }
    | _ => pollEvents { s.record (.windowPollEvent (some e)) with window := w }
termination_by s.window.events.length
decreasing_by
  all_goals
    simp only [Window.pollEvent] at h
    split at h
    · split at h
      · simp at h
      · rename_i e0 rest hev
        simp only [Prod.mk.injEq, Option.some.injEq] at h
        obtain ⟨-, hw⟩ := h
        subst hw
        simp [State.record, Window.close, hev]
    · simp at h

/-- The function `cleanUp`. -/
def cleanUp (s : State) : State :=
  let s := glDeleteProgram s.shaderProgram s
  let s := glDeleteShader s.vertexShader s
  glDeleteShader s.fragmentShader s

/-- Between `draw` and `pollEvents` of an iteration the window receives the events of that
poll cycle. -/
def deliverEvents (env : Env) (s : State) : State :=
  { s with window := s.window.deliver (env.events (s.polls + 1)) }

/-- One iteration of the loop of `main`: `draw(); pollEvents();`. -/
def loopBody (env : Env) (s : State) : State :=
  let s := { s with iterations := s.iterations + 1 }
  let s := draw s
  pollEvents (deliverEvents env s)

/-- The loop `while (window.isOpen()) { draw(); pollEvents(); }`, cut after `fuel`
iterations. -/
def frameLoop (env : Env) : ℕ → State → State
  | 0, s => s
  | fuel + 1, s => if s.window.isOpen then frameLoop env fuel (loopBody env s) else s

/-- The function `main`: `init()`, the loop, `cleanUp()`, `return 0`. The result is the exit
code and the final state, or `none` when the loop has not ended within `fuel` iterations. -/
def main (env : Env) (fuel : ℕ) : Option (ℤ × State) :=
  let s := init env State.start
  let s := frameLoop env fuel s
  if s.window.isOpen then none
  else
    let s := cleanUp s
    some (0, s)

/-- The calls that mark the course of a run: a draw, the end of a poll cycle (the
`pollEvent` that returns false), the closing of the window, the deletion of an object. -/
def Call.isMark : Call → Bool
  | .glDrawArrays _ _ _ => true
  | .windowPollEvent none => true
  | .windowClose => true
  | .glDeleteProgram _ => true
  | .glDeleteShader _ => true
  | _ => false

/-- The marks of a log, in order. -/
def marks (log : List Call) : List Call := log.filter Call.isMark

/-- The calls one run of `pollEvents` makes on an open window with the pending events
`evs`. -/
def pollCalls : List Event → List Call
  | [] => [.windowPollEvent none]
  | e :: rest =>
    if e.type = .Closed then [.windowPollEvent (some e), .windowClose, .windowPollEvent none]
    else .windowPollEvent (some e) :: pollCalls rest

/-- No pending event is a `Closed` event. -/
def noClosed (evs : List Event) : Bool := evs.all (fun e => decide (e.type ≠ .Closed))

/-- The marks of a run from `init` through `n` iterations of the loop of `main`, the window
being open or closed at the end: a draw and the end of its poll cycle for each iteration,
the window closing inside the last poll cycle when it is closed at the end. -/
def runMarks (n : ℕ) (isOpen : Bool) : List Call :=
  if isOpen then
    (List.replicate n
      [Call.glDrawArrays .GL_TRIANGLE_STRIP 0 4, Call.windowPollEvent none]).flatten
  else
    (List.replicate (n - 1)
      [Call.glDrawArrays .GL_TRIANGLE_STRIP 0 4, Call.windowPollEvent none]).flatten
      ++ [Call.glDrawArrays .GL_TRIANGLE_STRIP 0 4, Call.windowClose, Call.windowPollEvent none]

/-- Both shaders compile and the program links. -/
def Env.pipelineOk (env : Env) : Bool :=
  env.vertexCompiles && env.fragmentCompiles && env.linkSucceeds

/-- What every draw call finds in a run with the environment `env`. -/
def frameRecord (env : Env) : DrawRecord :=
  { windowOpen := true
    currentProgram := if env.pipelineOk then 3 else 0
    programLinked := env.pipelineOk
    programDeleted := false
    primitives :=
      if env.pipelineOk then some (drawPrimitives .GL_TRIANGLE_STRIP 0 4) else none }

/-- The states the loop of `main` passes through at the loop test, in a run with the
environment `env`. -/
def Reached (env : Env) (s : State) : Prop :=
  s.window.events = [] ∧
  s.gl = (init env State.start).gl ∧
  s.vertexShader = 1 ∧ s.fragmentShader = 2 ∧ s.shaderProgram = 3 ∧
  s.polls = s.iterations ∧
  s.draws = List.replicate s.iterations (frameRecord env) ∧
  (∃ rest, s.log = (init env State.start).log ++ rest ∧
    marks rest = runMarks s.iterations s.window.isOpen) ∧
  (∀ i, 1 ≤ i → i < s.iterations → noClosed (env.events i) = true) ∧
  (1 ≤ s.iterations → s.window.isOpen = noClosed (env.events s.iterations)) ∧
  (s.iterations = 0 → s.window.isOpen = true)

/-- An environment in which both shaders compile, the program links, and the window receives
a key press in the first poll cycle and a `Closed` event in the second. -/
def envCloseSecond : Env :=
  { vertexCompiles := true, fragmentCompiles := true, linkSucceeds := true
    events := fun k => if k = 1 then [⟨.KeyPressed⟩] else if k = 2 then [⟨.Closed⟩] else [] }

/-- An environment in which both shaders compile but the program does not link, and the
window receives a `Closed` event in the first poll cycle. -/
def envLinkFails : Env :=
  { vertexCompiles := true, fragmentCompiles := true, linkSucceeds := false
    events := fun _ => [⟨.Closed⟩] }

end BufferFree

namespace BufferFree

/-! ## Shader stages -/

theorem glslMod_natCast (n m : ℕ) (hm : 0 < m) :
    glslMod (n : ℚ) (m : ℚ) = ((n % m : ℕ) : ℚ) := by
  unfold glslMod
  have h2 := Nat.div_add_mod n m
  have h3 := Nat.mod_lt n hm
  generalize n / m = q at h2
  generalize n % m = r at h2 h3
  subst h2
  have h5 : (r : ℚ) < m := by exact_mod_cast h3
  have h6 : (0 : ℚ) ≤ (r : ℚ) := Nat.cast_nonneg _
  have h7 : (0 : ℚ) < m := by exact_mod_cast hm
  have h : ⌊((m * q + r : ℕ) : ℚ) / (m : ℚ)⌋ = (q : ℤ) := by
    rw [Int.floor_eq_iff]
    constructor
    · rw [le_div_iff₀ h7]
      push_cast
      nlinarith
    · rw [div_lt_iff₀ h7]
      push_cast
      nlinarith
  rw [h]
  push_cast
  ring

theorem glslMod_nat (n : ℕ) : glslMod (toFloat (n : ℤ)) (toFloat 2) = ((n % 2 : ℕ) : ℚ) := by
  have h := glslMod_natCast n 2 (by norm_num)
  unfold toFloat
  push_cast at h ⊢
  exact h

theorem glslMod_nonneg (y m : ℚ) (hm : 0 < m) : 0 ≤ glslMod y m := by
  unfold glslMod
  have h := Int.floor_le (y / m)
  rw [le_div_iff₀ hm] at h
  linarith

theorem glslMod_lt (y m : ℚ) (hm : 0 < m) : glslMod y m < m := by
  unfold glslMod
  have h := Int.lt_floor_add_one (y / m)
  rw [div_lt_iff₀ hm] at h
  linarith

theorem glslMod_add_period (y m : ℚ) (hm : 0 < m) : glslMod (y + m) m = glslMod y m := by
  unfold glslMod
  have h : (y + m) / m = y / m + 1 := by field_simp
  rw [h, Int.floor_add_one]
  push_cast
  ring

theorem stripe_eq (y : ℚ) : stripe y = glslMod y 50 * (1 / 50) := by
  unfold stripe verticalStripes
  norm_num

theorem vertexMain_natCast (i : ℕ) :
    vertexMain (i : ℤ) = ⟨((i % 2 : ℕ) : ℚ), (((i / 2) % 2 : ℕ) : ℚ), 0, 1⟩ := by
  have hd : Int.tdiv (i : ℤ) 2 = ((i / 2 : ℕ) : ℤ) := by
    rw [Int.tdiv_eq_ediv (Int.natCast_nonneg i) (by norm_num)]
    norm_cast
  unfold vertexMain
  rw [hd, glslMod_nat, glslMod_nat]
  norm_num

theorem vertexMain_positions_aux :
    [vertexMain 0, vertexMain 1, vertexMain 2, vertexMain 3]
      = [⟨0, 0, 0, 1⟩, ⟨1, 0, 0, 1⟩, ⟨0, 1, 0, 1⟩, ⟨1, 1, 0, 1⟩] := by
  have h0 := vertexMain_natCast 0
  have h1 := vertexMain_natCast 1
  have h2 := vertexMain_natCast 2
  have h3 := vertexMain_natCast 3
  norm_num at h0 h1 h2 h3
  rw [h0, h1, h2, h3]

/-- C1. The vertex stage at the invocation index `i` (0-based) is
`(i mod 2, (i div 2) mod 2, 0, 1)` with integer division, and at `i = 0, 1, 2, 3` it gives
`(0,0,0,1)`, `(1,0,0,1)`, `(0,1,0,1)`, `(1,1,0,1)` in that order. -/
theorem vertexMain_positions :
    (∀ i : ℕ, vertexMain (i : ℤ) = ⟨((i % 2 : ℕ) : ℚ), (((i / 2) % 2 : ℕ) : ℚ), 0, 1⟩) ∧
    [vertexMain 0, vertexMain 1, vertexMain 2, vertexMain 3]
      = [⟨0, 0, 0, 1⟩, ⟨1, 0, 0, 1⟩, ⟨0, 1, 0, 1⟩, ⟨1, 1, 0, 1⟩] :=
  ⟨vertexMain_natCast, vertexMain_positions_aux⟩

/-- C2 (as stated, refuted). At the window coordinate `y = 49.5`, the centre of pixel row 49,
the stripe is `0.99`, above `0.98`; the same holds one period up at `y = 349.5`, the centre of
pixel row 349, which the draw call of `draw()` shades. -/
theorem stripe_above_098 :
    (0 : ℚ) ≤ 99 / 2 ∧ stripe (99 / 2) = 99 / 100 ∧ ¬ (stripe (99 / 2) ≤ 0.98) ∧
    stripe (699 / 2) = 99 / 100 ∧ ¬ (stripe (699 / 2) ≤ 0.98) := by
  have h : stripe (99 / 2) = 99 / 100 := by
    rw [stripe_eq]
    unfold glslMod
    norm_num
  have h2 : stripe (699 / 2) = 99 / 100 := by
    rw [stripe_eq]
    unfold glslMod
    norm_num
  refine ⟨by norm_num, h, ?_, h2, ?_⟩
  · rw [h]
    norm_num
  · rw [h2]
    norm_num

/-- C2 (amended). For every window coordinate `y` the stripe `(y mod 50) * 0.02` lies in the
half-open interval `[0, 1)` and `stripe (y + 50) = stripe y`; at an integer `y ≥ 0` it is
`(y mod 50) * 0.02` with the integer remainder, so it lies in `[0, 0.98]`. -/
theorem stripe_range_period :
    (∀ y : ℚ, 0 ≤ stripe y ∧ stripe y < 1 ∧ stripe (y + 50) = stripe y) ∧
    (∀ n : ℕ, stripe (n : ℚ) = ((n % 50 : ℕ) : ℚ) * 0.02 ∧ stripe (n : ℚ) ≤ 0.98) := by
  constructor
  · intro y
    have h0 := glslMod_nonneg y 50 (by norm_num)
    have h1 := glslMod_lt y 50 (by norm_num)
    have h2 := glslMod_add_period y 50 (by norm_num)
    rw [stripe_eq, stripe_eq, h2]
    refine ⟨by linarith, by linarith, rfl⟩
  · intro n
    have h := glslMod_natCast n 50 (by norm_num)
    have h3 := Nat.mod_lt n (show 0 < 50 by norm_num)
    have h4 : ((n % 50 : ℕ) : ℚ) ≤ 49 := by exact_mod_cast Nat.lt_succ_iff.mp h3
    push_cast at h
    rw [stripe_eq, h]
    constructor
    · norm_num
    · norm_num
      linarith

theorem pollEvents_of_closed (s : State) (h : s.window.isOpen = false) :
    pollEvents s = { s.record (.windowPollEvent none) with polls := s.polls + 1 } := by
  rw [pollEvents]
  have hp : s.window.pollEvent = (none, s.window) := by simp [Window.pollEvent, h]
  split
  · rename_i w hw
    rw [hp] at hw
    simp only [Prod.mk.injEq, true_and] at hw
    subst hw
    rfl
  · rename_i e w hw
    rw [hp] at hw
    simp at hw

theorem pollEvents_of_open (evs : List Event) :
    ∀ s : State, s.window = { isOpen := true, events := evs } →
      pollEvents s =
        { s with
          window := { isOpen := noClosed evs, events := [] }
          log := s.log ++ pollCalls evs
          polls := s.polls + 1 } := by
  induction evs with
  | nil =>
    intro s hs
    rw [pollEvents]
    have hp : s.window.pollEvent = (none, s.window) := by simp [Window.pollEvent, hs]
    split
    · rename_i w hw
      rw [hp] at hw
      simp only [Prod.mk.injEq, true_and] at hw
      subst hw
      simp [State.record, pollCalls, noClosed, hs]
    · rename_i e w hw
      rw [hp] at hw
      simp at hw
  | cons e rest ih =>
    intro s hs
    rw [pollEvents]
    have hp : s.window.pollEvent = (some e, { isOpen := true, events := rest }) := by
      simp [Window.pollEvent, hs]
    split
    · rename_i w hw
      rw [hp] at hw
      simp at hw
    · rename_i e1 w hw
      rw [hp] at hw
      simp only [Prod.mk.injEq, Option.some.injEq] at hw
      obtain ⟨he, hw⟩ := hw
      subst he
      subst hw
      split
      · rename_i hc
        rw [pollEvents_of_closed _ (by simp [State.record, Window.close])]
        simp [State.record, pollCalls, noClosed, hc, Window.close]
      · rename_i hc
        rw [ih _ rfl]
        have hc2 : e.type ≠ .Closed := fun h => hc h
        simp [State.record, pollCalls, noClosed, hc2]

theorem noClosed_iff (evs : List Event) :
    noClosed evs = true ↔ ∀ e ∈ evs, e.type ≠ .Closed := by
  simp [noClosed, List.all_eq_true]

theorem noClosed_false_iff (evs : List Event) :
    noClosed evs = false ↔ ∃ e ∈ evs, e.type = .Closed := by
  rw [← Bool.not_eq_true, noClosed_iff]
  push_neg
  rfl

theorem pollEvents_window (s : State) :
    (pollEvents s).window =
      if s.window.isOpen then { isOpen := noClosed s.window.events, events := [] }
      else s.window := by
  cases h : s.window.isOpen with
  | false => rw [pollEvents_of_closed s h]; simp [State.record]
  | true =>
    have hw : s.window = { isOpen := true, events := s.window.events } := by
      rw [← h]
    rw [pollEvents_of_open s.window.events s hw]
    simp

/-- C5. After `pollEvents()` the window is open if and only if it was open before and no
pending event is a `Closed` event; so a pending `Closed` event closes an open window within
that call, events of other kinds never close it, and a closed window stays closed. -/
theorem pollEvents_isOpen_iff (s : State) :
    ((pollEvents s).window.isOpen = true ↔
      (s.window.isOpen = true ∧ ∀ e ∈ s.window.events, e.type ≠ .Closed)) ∧
    ((∃ e ∈ s.window.events, e.type = .Closed) → (pollEvents s).window.isOpen = false) ∧
    ((∀ e ∈ s.window.events, e.type ≠ .Closed) →
      (pollEvents s).window.isOpen = s.window.isOpen) ∧
    (s.window.isOpen = false → (pollEvents s).window.isOpen = false) := by
  have hw := pollEvents_window s
  cases h : s.window.isOpen with
  | false =>
    rw [h] at hw
    simp at hw
    rw [hw, h]
    simp
  | true =>
    rw [h] at hw
    simp only [if_true] at hw
    rw [hw]
    simp only [true_and]
    refine ⟨noClosed_iff _, ?_, ?_, ?_⟩
    · intro hc
      exact (noClosed_false_iff _).mpr hc
    · intro hc
      exact (noClosed_iff _).mpr hc
    · intro hc
      simp at hc

theorem pollEvents_isOpen_iff_witness :
    (pollEvents { State.start with
        window := { isOpen := true, events := [⟨.Resized⟩, ⟨.Closed⟩, ⟨.KeyPressed⟩] } }
      ).window.isOpen = false :=
  (pollEvents_isOpen_iff { State.start with
      window := { isOpen := true, events := [⟨.Resized⟩, ⟨.Closed⟩, ⟨.KeyPressed⟩] } }).2.1
    ⟨⟨.Closed⟩, by decide, rfl⟩

theorem pollEvents_of_empty (s : State) (h : s.window.events = []) :
    pollEvents s = { s with log := s.log ++ [.windowPollEvent none], polls := s.polls + 1 } := by
  cases ho : s.window.isOpen with
  | false => rw [pollEvents_of_closed s ho]; rfl
  | true =>
    have hw : s.window = { isOpen := true, events := [] } := by
      rw [← h, ← ho]
    rw [pollEvents_of_open [] s hw]
    simp [noClosed, pollCalls, ← hw]

/-- C6. With no pending event, `pollEvents()` makes the one call of `pollEvent` that returns
false and handles no event: the queue stays empty and the window, open or closed, is
unchanged, as are the globals and the OpenGL context; the same holds after any number of
such calls, so the window after `n` calls is the window after one call and after none. -/
theorem pollEvents_idle (s : State) (h : s.window.events = []) :
    pollEvents s = { s with log := s.log ++ [.windowPollEvent none], polls := s.polls + 1 } ∧
    (pollEvents s).window.events = [] ∧
    (pollEvents s).window.isOpen = s.window.isOpen ∧
    ∀ n : ℕ,
      (Nat.iterate pollEvents n s).window = s.window ∧
      (Nat.iterate pollEvents n s).window = (pollEvents s).window ∧
      (Nat.iterate pollEvents n s).log = s.log ++ List.replicate n (.windowPollEvent none) ∧
      (Nat.iterate pollEvents n s).gl = s.gl := by
  have h1 := pollEvents_of_empty s h
  refine ⟨h1, by rw [h1]; exact h, by rw [h1], ?_⟩
  have key : ∀ (n : ℕ) (t : State), t.window.events = [] →
      (Nat.iterate pollEvents n t).window = t.window ∧
      (Nat.iterate pollEvents n t).log = t.log ++ List.replicate n (.windowPollEvent none) ∧
      (Nat.iterate pollEvents n t).gl = t.gl := by
    intro n
    induction n with
    | zero => intro t _; simp
    | succ m ih =>
      intro t ht
      have h2 := pollEvents_of_empty t ht
      have h3 := ih (pollEvents t) (by rw [h2]; exact ht)
      rw [Function.iterate_succ_apply]
      rw [h3.1, h3.2.1, h3.2.2, h2]
      simp [List.replicate_succ]
  intro n
  have hk := key n s h
  refine ⟨hk.1, ?_, hk.2.1, hk.2.2⟩
  rw [hk.1, h1]

theorem pollEvents_idle_witness :
    (Nat.iterate pollEvents 3 (init ⟨true, true, true, fun _ => []⟩ State.start)).window
      = { isOpen := true, events := [] } :=
  ((pollEvents_idle (init ⟨true, true, true, fun _ => []⟩ State.start) rfl).2.2.2 3).1

/-! ## The frame loop -/

theorem marks_pollCalls (evs : List Event) :
    marks (pollCalls evs) =
      if noClosed evs then [Call.windowPollEvent none]
      else [Call.windowClose, Call.windowPollEvent none] := by
  induction evs with
  | nil => simp [marks, pollCalls, noClosed, Call.isMark]
  | cons e rest ih =>
    by_cases hc : e.type = .Closed
    · simp [marks, pollCalls, noClosed, Call.isMark, hc]
    · simp only [marks, noClosed] at ih
      simp [marks, pollCalls, noClosed, Call.isMark, hc, ih]

theorem marks_append (a b : List Call) : marks (a ++ b) = marks a ++ marks b := by
  simp [marks]

theorem loopBody_eq (env : Env) (s : State) (h : s.window = { isOpen := true, events := [] }) :
    loopBody env s =
      { s with
        window := { isOpen := noClosed (env.events (s.polls + 1)), events := [] }
        log := s.log ++ [.glClearColor, .glClear, .glDrawArrays .GL_TRIANGLE_STRIP 0 4,
          .windowDisplay] ++ pollCalls (env.events (s.polls + 1))
        draws := s.draws ++
          [{ windowOpen := true
             currentProgram := s.gl.currentProgram
             programLinked := s.gl.linked s.shaderProgram
             programDeleted := decide (s.shaderProgram ∈ s.gl.deleted)
             primitives :=
               if s.gl.currentProgram ≠ 0 ∧ s.gl.linked s.gl.currentProgram = true then
                 some (drawPrimitives .GL_TRIANGLE_STRIP 0 4)
               else none }]
        polls := s.polls + 1
        iterations := s.iterations + 1 } := by
  unfold loopBody
  rw [pollEvents_of_open (env.events (s.polls + 1))]
  · simp [deliverEvents, draw, glDrawArrays, glClear, glClearColor, State.record, h]
  · simp [deliverEvents, draw, glDrawArrays, glClear, glClearColor, State.record, h,
      Window.deliver]

theorem init_gl (env : Env) :
    (init env State.start).gl.currentProgram = (if env.pipelineOk then 3 else 0) ∧
    (init env State.start).gl.linked 3 = env.pipelineOk ∧
    (init env State.start).gl.deleted = [] := by
  cases env with
  | mk a b c d => cases a <;> cases b <;> cases c <;> exact ⟨rfl, rfl, rfl⟩

theorem init_log (env : Env) :
    (init env State.start).log =
      [.windowCreate 800 600 24 8 2, .glewInit,
       .glCreateShader .GL_VERTEX_SHADER, .glShaderSource 1 .vertexSource, .glCompileShader 1,
       .glCreateShader .GL_FRAGMENT_SHADER, .glShaderSource 2 .fragmentSource,
       .glCompileShader 2,
       .glCreateProgram, .glAttachShader 3 1, .glAttachShader 3 2,
       .glBindFragDataLocation 3 0, .glLinkProgram 3, .glUseProgram 3] := rfl

theorem reached_init (env : Env) : Reached env (init env State.start) := by
  refine ⟨rfl, rfl, rfl, rfl, rfl, rfl, rfl, ⟨[], by simp, rfl⟩, ?_, ?_, ?_⟩
  · intro i h1 h2
    have h3 : (init env State.start).iterations = 0 := rfl
    omega
  · intro h1
    have h3 : (init env State.start).iterations = 0 := rfl
    omega
  · intro _
    rfl

theorem reached_loopBody (env : Env) (s : State) (hr : Reached env s)
    (ho : s.window.isOpen = true) : Reached env (loopBody env s) := by
  obtain ⟨hev, hgl, hvs, hfs, hsp, hpolls, hdraws, ⟨rest, hlog, hmarks⟩, hbefore, hlast, -⟩ := hr
  have hw : s.window = { isOpen := true, events := [] } := by
    rw [← hev, ← ho]
  have hopen : ∀ i, 1 ≤ i → i ≤ s.iterations → noClosed (env.events i) = true := by
    intro i h1 h2
    rcases Nat.lt_or_ge i s.iterations with h3 | h3
    · exact hbefore i h1 h3
    · have h4 : i = s.iterations := by omega
      subst h4
      rw [← hlast h1]
      exact ho
  have hg := init_gl env
  rw [loopBody_eq env s hw]
  refine ⟨rfl, hgl, hvs, hfs, hsp, ?_, ?_, ?_, ?_, ?_, ?_⟩
  · show s.polls + 1 = s.iterations + 1
    rw [hpolls]
  · show s.draws ++ _ = List.replicate (s.iterations + 1) (frameRecord env)
    rw [hdraws, List.replicate_succ', hsp, hgl, hg.1, hg.2.1, hg.2.2]
    congr 2
    unfold frameRecord
    cases hp : env.pipelineOk with
    | false => simp
    | true =>
      have h3 := hg.2.1
      rw [hp] at h3
      simp [h3]
  · refine ⟨rest ++ [.glClearColor, .glClear, .glDrawArrays .GL_TRIANGLE_STRIP 0 4,
      .windowDisplay] ++ pollCalls (env.events (s.polls + 1)), ?_, ?_⟩
    · show s.log ++ _ ++ _ = _
      rw [hlog]
      simp
    · show _ = runMarks (s.iterations + 1) (noClosed (env.events (s.polls + 1)))
      rw [marks_append, marks_append, hmarks, marks_pollCalls, ho]
      cases hn : noClosed (env.events (s.polls + 1)) with
      | false =>
        simp [runMarks, marks, Call.isMark]
      | true =>
        simp [runMarks, marks, Call.isMark, List.replicate_succ']
  · intro i h1 h2
    exact hopen i h1 (by
      have : i < s.iterations + 1 := h2
      omega)
  · intro _
    show noClosed (env.events (s.polls + 1)) = noClosed (env.events (s.iterations + 1))
    rw [hpolls]
  · intro h1
    have : s.iterations + 1 = 0 := h1
    omega

theorem frameLoop_iterations (env : Env) (fuel : ℕ) :
    ∀ s : State, Reached env s →
      Reached env (frameLoop env fuel s) ∧
      ((frameLoop env fuel s).window.isOpen = true →
        (frameLoop env fuel s).iterations = s.iterations + fuel) ∧
      (frameLoop env fuel s).iterations ≤ s.iterations + fuel ∧
      (s.window.isOpen = true → 1 ≤ fuel → s.iterations < (frameLoop env fuel s).iterations) := by
  induction fuel with
  | zero =>
    intro s hr
    refine ⟨hr, fun _ => rfl, Nat.le_refl _, ?_⟩
    intro _ h
    omega
  | succ n ih =>
    intro s hr
    cases ho : s.window.isOpen with
    | false =>
      have he : frameLoop env (n + 1) s = s := by simp [frameLoop, ho]
      rw [he]
      refine ⟨hr, ?_, by omega, ?_⟩
      · intro h
        rw [ho] at h
        simp at h
      · intro h
        simp at h
    | true =>
      have he : frameLoop env (n + 1) s = frameLoop env n (loopBody env s) := by
        simp [frameLoop, ho]
      have hr2 := reached_loopBody env s hr ho
      have hit : (loopBody env s).iterations = s.iterations + 1 := by
        have hw : s.window = { isOpen := true, events := [] } := by
          rw [← hr.1, ← ho]
        rw [loopBody_eq env s hw]
      obtain ⟨h1, h2, h3, -⟩ := ih (loopBody env s) hr2
      rw [he]
      refine ⟨h1, ?_, by omega, ?_⟩
      · intro h
        rw [h2 h, hit]
        omega
      · intro _ _
        have h4 : (loopBody env s).iterations ≤ (frameLoop env n (loopBody env s)).iterations := by
          clear h2 h3 he
          have hmono : ∀ (m : ℕ) (t : State), Reached env t →
              t.iterations ≤ (frameLoop env m t).iterations := by
            intro m
            induction m with
            | zero => intro t _; exact Nat.le_refl _
            | succ m ihm =>
              intro t ht
              cases hto : t.window.isOpen with
              | false => simp [frameLoop, hto]
              | true =>
                have hw : t.window = { isOpen := true, events := [] } := by
                  rw [← ht.1, ← hto]
                have h5 := ihm (loopBody env t) (reached_loopBody env t ht hto)
                have h6 : (loopBody env t).iterations = t.iterations + 1 := by
                  rw [loopBody_eq env t hw]
                simp only [frameLoop, hto, if_true]
                omega
          exact hmono n _ hr2
        omega

theorem cleanUp_eq (s : State) :
    cleanUp s =
      { s with
        log := s.log ++ [.glDeleteProgram s.shaderProgram, .glDeleteShader s.vertexShader,
          .glDeleteShader s.fragmentShader]
        gl := { s.gl with
          deleted := s.gl.deleted ++ [s.shaderProgram, s.vertexShader, s.fragmentShader] } } := by
  simp [cleanUp, glDeleteProgram, glDeleteShader, State.record]

theorem main_eq (env : Env) (fuel : ℕ) :
    main env fuel =
      if (frameLoop env fuel (init env State.start)).window.isOpen then none
      else some (0, cleanUp (frameLoop env fuel (init env State.start))) := rfl

theorem marks_init_log (env : Env) : marks (init env State.start).log = [] := by
  rw [init_log]
  rfl

theorem reached_marks (env : Env) (s : State) (hr : Reached env s) :
    marks s.log = runMarks s.iterations s.window.isOpen := by
  obtain ⟨rest, hlog, hmarks⟩ := hr.2.2.2.2.2.2.2.1
  rw [hlog, marks_append, marks_init_log, hmarks]
  rfl

theorem frameRecord_mem (env : Env) (n : ℕ) (r : DrawRecord)
    (h : r ∈ List.replicate n (frameRecord env)) : r = frameRecord env :=
  (List.mem_replicate.mp h).2

/-- The loop of `main` ends, with the window closed, in the poll cycle `k` of the first
`Closed` event, provided the fuel allows `k` iterations; with less fuel it is cut short. -/
theorem frameLoop_first_close (env : Env) (k : ℕ) (hk : 1 ≤ k)
    (hclosed : ∃ e ∈ env.events k, e.type = .Closed)
    (hfirst : ∀ j, 1 ≤ j → j < k → ∀ e ∈ env.events j, e.type ≠ .Closed) (fuel : ℕ) :
    (fuel < k → (frameLoop env fuel (init env State.start)).window.isOpen = true) ∧
    (k ≤ fuel → (frameLoop env fuel (init env State.start)).window.isOpen = false ∧
      (frameLoop env fuel (init env State.start)).iterations = k) := by
  obtain ⟨hr, hopen, hle, -⟩ := frameLoop_iterations env fuel _ (reached_init env)
  have h0 : (init env State.start).iterations = 0 := rfl
  rw [h0] at hopen hle
  have hck : noClosed (env.events k) = false := (noClosed_false_iff _).mpr hclosed
  have hbefore := hr.2.2.2.2.2.2.2.2.1
  have hlast := hr.2.2.2.2.2.2.2.2.2.1
  have hzero := hr.2.2.2.2.2.2.2.2.2.2
  generalize frameLoop env fuel (init env State.start) = t at *
  constructor
  · intro hf
    cases ho : t.window.isOpen with
    | true => rfl
    | false =>
      exfalso
      have h1 : 1 ≤ t.iterations := by
        rcases Nat.eq_zero_or_pos t.iterations with h | h
        · rw [hzero h] at ho
          simp at ho
        · exact h
      have h2 := hlast h1
      rw [ho] at h2
      have h3 := (noClosed_iff _).mpr (hfirst t.iterations h1 (by omega))
      rw [h3] at h2
      simp at h2
  · intro hf
    cases ho : t.window.isOpen with
    | true =>
      exfalso
      have h1 := hopen ho
      rcases Nat.lt_or_ge k t.iterations with h | h
      · have h2 := hbefore k hk h
        rw [hck] at h2
        simp at h2
      · have h3 : t.iterations = k := by omega
        have h4 := hlast (by omega)
        rw [h3, hck, ho] at h4
        simp at h4
    | false =>
      refine ⟨rfl, ?_⟩
      have h1 : 1 ≤ t.iterations := by
        rcases Nat.eq_zero_or_pos t.iterations with h | h
        · rw [hzero h] at ho
          simp at ho
        · exact h
      have h2 := hlast h1
      rw [ho] at h2
      rcases Nat.lt_trichotomy t.iterations k with h | h | h
      · have h3 := (noClosed_iff _).mpr (hfirst t.iterations h1 h)
        rw [h3] at h2
        simp at h2
      · exact h
      · have h3 := hbefore k hk h
        rw [hck] at h3
        simp at h3

theorem envCloseSecond_first :
    (∃ e ∈ envCloseSecond.events 2, e.type = .Closed) ∧
    ∀ j, 1 ≤ j → j < 2 → ∀ e ∈ envCloseSecond.events j, e.type ≠ .Closed := by
  constructor
  · exact ⟨⟨.Closed⟩, by simp [envCloseSecond], rfl⟩
  · intro j h1 h2 e he
    have hj : j = 1 := by omega
    subst hj
    simp [envCloseSecond] at he
    subst he
    decide

/-- C7. When the first `Closed` event is delivered in poll cycle `k ≥ 1`, `main()` returns,
given fuel for `k` iterations, and not with less: it returns the exit code 0 after exactly
`k` iterations of the loop (`k` draws, each with the window open, and `k` poll cycles, the
window closing in the last one and no iteration following), and after the loop `cleanUp()`
deletes the program, the vertex shader and the fragment shader, once each. -/
theorem main_exits_at_first_close (env : Env) (k : ℕ) (hk : 1 ≤ k)
    (hclosed : ∃ e ∈ env.events k, e.type = .Closed)
    (hfirst : ∀ j, 1 ≤ j → j < k → ∀ e ∈ env.events j, e.type ≠ .Closed) :
    (∀ fuel, fuel < k → main env fuel = none) ∧
    (∀ fuel, k ≤ fuel → ∃ s, main env fuel = some (0, s) ∧
      s.iterations = k ∧ s.polls = k ∧ s.draws.length = k ∧
      (∀ r ∈ s.draws, r.windowOpen = true) ∧
      s.window.isOpen = false ∧
      s.shaderProgram = 3 ∧ s.vertexShader = 1 ∧ s.fragmentShader = 2 ∧
      marks s.log = runMarks k false ++
        [.glDeleteProgram s.shaderProgram, .glDeleteShader s.vertexShader,
         .glDeleteShader s.fragmentShader] ∧
      s.gl.deleted = [s.shaderProgram, s.vertexShader, s.fragmentShader]) := by
  constructor
  · intro fuel hf
    have h := (frameLoop_first_close env k hk hclosed hfirst fuel).1 hf
    rw [main_eq, h]
    rfl
  · intro fuel hf
    obtain ⟨hc, hit⟩ := (frameLoop_first_close env k hk hclosed hfirst fuel).2 hf
    obtain ⟨hr, -⟩ := frameLoop_iterations env fuel _ (reached_init env)
    have hm := reached_marks env _ hr
    obtain ⟨-, hgl, hvs, hfs, hsp, hpolls, hdraws, -⟩ := hr
    refine ⟨cleanUp (frameLoop env fuel (init env State.start)), ?_, ?_⟩
    · rw [main_eq, hc]
      rfl
    · rw [cleanUp_eq]
      generalize frameLoop env fuel (init env State.start) = t at *
      refine ⟨hit, ?_, ?_, ?_, hc, hsp, hvs, hfs, ?_, ?_⟩
      · show t.polls = k
        rw [hpolls, hit]
      · show t.draws.length = k
        rw [hdraws, List.length_replicate, hit]
      · intro r hrm
        have hrm2 : r ∈ t.draws := hrm
        rw [hdraws] at hrm2
        rw [frameRecord_mem env _ r hrm2]
        rfl
      · show marks (t.log ++ _) = _
        rw [marks_append, hm, hit, hc]
        rfl
      · show t.gl.deleted ++ _ = _
        rw [hgl, (init_gl env).2.2]
        rfl

theorem main_exits_at_first_close_witness :
    ∃ s, main envCloseSecond 5 = some (0, s) ∧ s.iterations = 2 ∧ s.gl.deleted = [3, 1, 2] := by
  obtain ⟨s, h1, h2, -, -, -, -, h3, h4, h5, -, h6⟩ :=
    (main_exits_at_first_close envCloseSecond 2 (by decide) envCloseSecond_first.1
      envCloseSecond_first.2).2 5 (by decide)
  refine ⟨s, h1, h2, ?_⟩
  rw [h6, h3, h4, h5]

/-- C8 (as stated, refuted). When the driver fails to link the program, `main()` still
issues its draw call: the run returns 0 after one draw made with a program that is not
linked and with no current program. -/
theorem draw_with_unlinked_program :
    ∃ s, main envLinkFails 1 = some (0, s) ∧
      s.draws = [{ windowOpen := true, currentProgram := 0, programLinked := false,
                   programDeleted := false, primitives := none }] := by
  have hclosed : ∃ e ∈ envLinkFails.events 1, e.type = .Closed :=
    ⟨⟨.Closed⟩, by simp [envLinkFails], rfl⟩
  have hfirst : ∀ j, 1 ≤ j → j < 1 → ∀ e ∈ envLinkFails.events j, e.type ≠ .Closed := by
    intro j h1 h2
    omega
  obtain ⟨hc, hit⟩ :=
    (frameLoop_first_close envLinkFails 1 (Nat.le_refl 1) hclosed hfirst 1).2 (Nat.le_refl 1)
  obtain ⟨hr, -⟩ := frameLoop_iterations envLinkFails 1 _ (reached_init envLinkFails)
  have hdraws := hr.2.2.2.2.2.2.1
  refine ⟨cleanUp (frameLoop envLinkFails 1 (init envLinkFails State.start)), ?_, ?_⟩
  · rw [main_eq, hc]
    rfl
  · rw [cleanUp_eq]
    show (frameLoop envLinkFails 1 (init envLinkFails State.start)).draws = _
    rw [hdraws, hit]
    rfl

/-- C8 (amended). In every run of `main()`, for every outcome of compilation and linking,
all calls of `init` (the `glLinkProgram` and `glUseProgram` of `initShaders` among them, and
no draw) come before the calls of the loop, and the outcome is never tested: the first
iteration always draws, and at every draw call the program is linked and current exactly when
both shaders compiled and the link succeeded; otherwise the draw is issued with a program
that is not linked and with no current program. -/
theorem draw_program_status (env : Env) (fuel : ℕ) :
    (∃ rest, (frameLoop env fuel (init env State.start)).log
        = (init env State.start).log ++ rest) ∧
    Call.glLinkProgram 3 ∈ (init env State.start).log ∧
    Call.glUseProgram 3 ∈ (init env State.start).log ∧
    marks (init env State.start).log = [] ∧
    (frameLoop env fuel (init env State.start)).shaderProgram = 3 ∧
    (frameLoop env (fuel + 1) (init env State.start)).draws ≠ [] ∧
    (∀ r ∈ (frameLoop env fuel (init env State.start)).draws,
      r.programLinked = (env.vertexCompiles && env.fragmentCompiles && env.linkSucceeds) ∧
      r.currentProgram = (if r.programLinked then 3 else 0) ∧
      r.primitives = (if r.programLinked then some (drawPrimitives .GL_TRIANGLE_STRIP 0 4)
        else none)) := by
  obtain ⟨hr, -⟩ := frameLoop_iterations env fuel _ (reached_init env)
  obtain ⟨hr1, -, -, hpos⟩ := frameLoop_iterations env (fuel + 1) _ (reached_init env)
  obtain ⟨rest, hlog, -⟩ := hr.2.2.2.2.2.2.2.1
  refine ⟨⟨rest, hlog⟩, ?_, ?_, marks_init_log env, hr.2.2.2.2.1, ?_, ?_⟩
  · rw [init_log]
    simp
  · rw [init_log]
    simp
  · have h1 := hpos rfl (by omega)
    rw [hr1.2.2.2.2.2.2.1]
    intro h2
    have h3 := List.length_replicate
      (frameLoop env (fuel + 1) (init env State.start)).iterations (frameRecord env)
    rw [h2] at h3
    simp at h3
    omega
  · intro r hrm
    rw [hr.2.2.2.2.2.2.1] at hrm
    rw [frameRecord_mem env _ r hrm]
    unfold frameRecord Env.pipelineOk
    simp

theorem draw_program_status_witness :
    ∃ r ∈ (frameLoop envLinkFails 1 (init envLinkFails State.start)).draws,
      r.programLinked = false ∧ r.currentProgram = 0 ∧ r.primitives = none := by
  have hne := (draw_program_status envLinkFails 0).2.2.2.2.2.1
  obtain ⟨r, hr⟩ := List.exists_mem_of_ne_nil _ hne
  have h := (draw_program_status envLinkFails 1).2.2.2.2.2.2 r hr
  have h1 : r.programLinked = false := h.1
  rw [h1] at h
  exact ⟨r, hr, h1, h.2.1, h.2.2⟩

/-- C10. In every run of `main()`, with every event stream: an iteration of the loop is one
`draw()` followed by one `pollEvents()`; after any number of iterations the draws, the poll
cycles and the iterations are equally many, every draw call found the window open and the
program not deleted, and the marks of the log are a draw and the end of its poll cycle per
iteration, the window closing only inside the last poll cycle; when `main()` returns, the
three deletions of `cleanUp()` follow the last poll cycle and no draw follows them. -/
theorem draw_only_in_live_window (env : Env) (fuel : ℕ) :
    (∀ s, loopBody env s
      = pollEvents (deliverEvents env (draw { s with iterations := s.iterations + 1 }))) ∧
    (∀ s, marks (draw s).log = marks s.log ++ [.glDrawArrays .GL_TRIANGLE_STRIP 0 4] ∧
      (draw s).draws.length = s.draws.length + 1) ∧
    (frameLoop env fuel (init env State.start)).draws.length
      = (frameLoop env fuel (init env State.start)).iterations ∧
    (frameLoop env fuel (init env State.start)).polls
      = (frameLoop env fuel (init env State.start)).iterations ∧
    (∀ r ∈ (frameLoop env fuel (init env State.start)).draws,
      r.windowOpen = true ∧ r.programDeleted = false) ∧
    marks (frameLoop env fuel (init env State.start)).log
      = runMarks (frameLoop env fuel (init env State.start)).iterations
          (frameLoop env fuel (init env State.start)).window.isOpen ∧
    (∀ c s, main env fuel = some (c, s) →
      s.draws = (frameLoop env fuel (init env State.start)).draws ∧
      s.draws.length = s.iterations ∧ s.polls = s.iterations ∧
      marks s.log = runMarks s.iterations false ++
        [.glDeleteProgram 3, .glDeleteShader 1, .glDeleteShader 2]) := by
  obtain ⟨hr, -⟩ := frameLoop_iterations env fuel _ (reached_init env)
  have hm := reached_marks env _ hr
  rw [main_eq]
  obtain ⟨-, -, hvs, hfs, hsp, hpolls, hdraws, -⟩ := hr
  generalize frameLoop env fuel (init env State.start) = t at *
  have hlen : t.draws.length = t.iterations := by
    rw [hdraws, List.length_replicate]
  refine ⟨fun _ => rfl, ?_, hlen, hpolls, ?_, hm, ?_⟩
  · intro s
    constructor
    · simp [draw, glDrawArrays, glClear, glClearColor, State.record, marks, Call.isMark]
    · simp [draw, glDrawArrays, glClear, glClearColor, State.record]
  · intro r hrm
    rw [hdraws] at hrm
    rw [frameRecord_mem env _ r hrm]
    exact ⟨rfl, rfl⟩
  · intro c s hs
    cases ho : t.window.isOpen with
    | true =>
      rw [ho] at hs
      simp at hs
    | false =>
      rw [ho] at hs
      simp only [Bool.false_eq_true, if_false, Option.some.injEq, Prod.mk.injEq] at hs
      obtain ⟨-, hs⟩ := hs
      subst hs
      rw [cleanUp_eq]
      refine ⟨rfl, hlen, hpolls, ?_⟩
      show marks (t.log ++ _) = _
      rw [marks_append, hm, ho, hsp, hvs, hfs]
      rfl

theorem draw_only_in_live_window_witness :
    ∃ s, main envCloseSecond 5 = some (0, s) ∧
      marks s.log =
        [.glDrawArrays .GL_TRIANGLE_STRIP 0 4, .windowPollEvent none,
         .glDrawArrays .GL_TRIANGLE_STRIP 0 4, .windowClose, .windowPollEvent none,
         .glDeleteProgram 3, .glDeleteShader 1, .glDeleteShader 2] := by
  obtain ⟨hc, hit⟩ :=
    (frameLoop_first_close envCloseSecond 2 (by decide) envCloseSecond_first.1
      envCloseSecond_first.2 5).2 (by decide)
  have hmain : main envCloseSecond 5
      = some (0, cleanUp (frameLoop envCloseSecond 5 (init envCloseSecond State.start))) := by
    rw [main_eq, hc]
    rfl
  refine ⟨_, hmain, ?_⟩
  have h := ((draw_only_in_live_window envCloseSecond 5).2.2.2.2.2.2 _ _ hmain).2.2.2
  rw [h]
  have hi : (cleanUp (frameLoop envCloseSecond 5 (init envCloseSecond State.start))).iterations
      = 2 := by
    rw [cleanUp_eq]
    exact hit
  rw [hi]
  rfl

/-! ## Strip topology -/

theorem stripTriangles_length {α : Type} :
    ∀ l : List α, (stripTriangles l).length = l.length - 2
  | [] => rfl
  | [_] => rfl
  | [_, _] => rfl
  | _ :: b :: c :: rest => by
    have ih := stripTriangles_length (b :: c :: rest)
    simp only [stripTriangles, List.length_cons] at ih ⊢
    omega

theorem stripTriangles_getElem? {α : Type} :
    ∀ (l : List α) (k : ℕ) (a b c : α),
      l[k]? = some a → l[k + 1]? = some b → l[k + 2]? = some c →
      (stripTriangles l)[k]? = some (a, b, c)
  | [], k, a, b, c => by simp
  | [_], k, a, b, c => by simp
  | [_, _], k, a, b, c => by
    intro _ _ h
    simp at h
  | x :: y :: z :: rest, 0, a, b, c => by
    intro h0 h1 h2
    simp at h0 h1 h2
    simp [stripTriangles, h0, h1, h2]
  | x :: y :: z :: rest, k + 1, a, b, c => by
    intro h0 h1 h2
    have ih := stripTriangles_getElem? (y :: z :: rest) k a b c
    simp only [stripTriangles, List.getElem?_cons_succ]
    exact ih (by simpa using h0) (by simpa using h1) (by simpa using h2)

theorem vertexIDs_getElem? (first count k : ℕ) (h : k < count) :
    (vertexIDs first count)[k]? = some ((first + k : ℕ) : ℤ) := by
  simp [vertexIDs, List.getElem?_range h]

theorem drawPrimitives_strip4 :
    drawPrimitives .GL_TRIANGLE_STRIP 0 4 =
      [(⟨0, 0, 0, 1⟩, ⟨1, 0, 0, 1⟩, ⟨0, 1, 0, 1⟩),
       (⟨1, 0, 0, 1⟩, ⟨0, 1, 0, 1⟩, ⟨1, 1, 0, 1⟩)] := by
  have h := vertexMain_positions_aux
  simp only [List.cons.injEq, and_true] at h
  obtain ⟨h0, h1, h2, h3⟩ := h
  have hv : (vertexIDs 0 4).map vertexMain
      = [vertexMain 0, vertexMain 1, vertexMain 2, vertexMain 3] := by
    simp [vertexIDs, List.range_succ]
  unfold drawPrimitives assemble
  rw [hv, h0, h1, h2, h3]
  rfl

theorem covers_unit_square (x y : ℚ) :
    (0 ≤ x ∧ x ≤ 1 ∧ 0 ≤ y ∧ y ≤ 1) ↔
      ∃ t ∈ drawPrimitives .GL_TRIANGLE_STRIP 0 4, covers t (x, y) := by
  rw [drawPrimitives_strip4]
  simp only [List.mem_cons, List.mem_singleton, List.not_mem_nil, or_false,
    exists_eq_or_imp, exists_eq_left]
  unfold covers ndc edgeFun
  simp only [div_one, sub_zero, zero_sub, one_mul, zero_mul, mul_zero, sub_self]
  constructor
  · rintro ⟨hx0, hx1, hy0, hy1⟩
    rcases le_total (x + y) 1 with h | h
    · left
      left
      refine ⟨by linarith, by linarith, by linarith⟩
    · right
      right
      refine ⟨by linarith, by linarith, by linarith⟩
  · rintro ((⟨h1, h2, h3⟩ | ⟨h1, h2, h3⟩) | (⟨h1, h2, h3⟩ | ⟨h1, h2, h3⟩))
    · refine ⟨by linarith, by linarith, by linarith, by linarith⟩
    · exfalso
      linarith
    · exfalso
      linarith
    · refine ⟨by linarith, by linarith, by linarith, by linarith⟩

/-- In the 800x600 window the two triangles of the draw call of `draw()` fill the upper right
quarter: every point they cover has window coordinates `x ≥ 400` and `y ≥ 300`, so no
fragment of the draw lies in pixel row 25. -/
theorem drawn_points_upper_right (p : ℚ × ℚ)
    (h : ∃ t ∈ drawPrimitives .GL_TRIANGLE_STRIP 0 4, covers t p) :
    400 ≤ (windowCoord p).1 ∧ 300 ≤ (windowCoord p).2 := by
  obtain ⟨hx0, -, hy0, -⟩ := (covers_unit_square p.1 p.2).mpr h
  unfold windowCoord
  constructor <;> nlinarith

/-- No point that the draw call of `draw()` covers lies in window pixel `(400, 25)`: in the
800x600 window the draw shades no fragment there, whatever its depth and `1/w`. -/
theorem no_fragment_in_pixel_400_25 (p : ℚ × ℚ) (z w : ℚ)
    (h : ∃ t ∈ drawPrimitives .GL_TRIANGLE_STRIP 0 4, covers t p) :
    pixelOf ⟨(windowCoord p).1, (windowCoord p).2, z, w⟩ ≠ (400, 25) := by
  have hy := (drawn_points_upper_right p h).2
  intro hp
  unfold pixelOf at hp
  have h25 : ⌊(windowCoord p).2⌋ = 25 := (Prod.mk.inj hp).2
  have hlt := (Int.floor_eq_iff.mp h25).2
  push_cast at hlt
  linarith

/-- C4. A triangle-strip draw of `n ≥ 3` vertices assembles `n - 2` triangles, triangle `k`
from the vertices `k`, `k + 1`, `k + 2` (counted from the first vertex of the draw). The
draw call of `draw()` is `glDrawArrays(GL_TRIANGLE_STRIP, 0, 4)`; with the vertex stage it
gives exactly the triangles `(0,0) (1,0) (0,1)` (primitive 0) and `(1,0) (0,1) (1,1)`
(primitive 1), which share the edge `(1,0)-(0,1)`, and a point lies in one of them exactly
when it lies in the unit square. -/
theorem strip_topology :
    (∀ first n : ℕ, 3 ≤ n →
      (drawIndices .GL_TRIANGLE_STRIP first n).length = n - 2 ∧
      ∀ k, k < n - 2 →
        (drawIndices .GL_TRIANGLE_STRIP first n)[k]?
          = some (((first + k : ℕ) : ℤ), ((first + (k + 1) : ℕ) : ℤ),
              ((first + (k + 2) : ℕ) : ℤ))) ∧
    (∀ s, (draw s).log = s.log ++
      [.glClearColor, .glClear, .glDrawArrays .GL_TRIANGLE_STRIP 0 4, .windowDisplay]) ∧
    drawPrimitives .GL_TRIANGLE_STRIP 0 4 =
      [(⟨0, 0, 0, 1⟩, ⟨1, 0, 0, 1⟩, ⟨0, 1, 0, 1⟩),
       (⟨1, 0, 0, 1⟩, ⟨0, 1, 0, 1⟩, ⟨1, 1, 0, 1⟩)] ∧
    (∀ t0 t1, drawPrimitives .GL_TRIANGLE_STRIP 0 4 = [t0, t1] →
      t0.2.1 = t1.1 ∧ t0.2.2 = t1.2.1 ∧ ndc t1.1 = (1, 0) ∧ ndc t1.2.1 = (0, 1)) ∧
    (∀ x y : ℚ, (0 ≤ x ∧ x ≤ 1 ∧ 0 ≤ y ∧ y ≤ 1) ↔
      ∃ t ∈ drawPrimitives .GL_TRIANGLE_STRIP 0 4, covers t (x, y)) := by
  refine ⟨?_, ?_, drawPrimitives_strip4, ?_, ?_⟩
  · intro first n hn
    constructor
    · simp [drawIndices, assemble, stripTriangles_length, vertexIDs]
    · intro k hk
      unfold drawIndices assemble
      exact stripTriangles_getElem? _ k _ _ _
        (vertexIDs_getElem? first n k (by omega))
        (vertexIDs_getElem? first n (k + 1) (by omega))
        (vertexIDs_getElem? first n (k + 2) (by omega))
  · intro s
    simp [draw, glDrawArrays, glClear, glClearColor, State.record]
  · intro t0 t1 h
    rw [drawPrimitives_strip4] at h
    simp only [List.cons.injEq, and_true] at h
    obtain ⟨h0, h1⟩ := h
    subst h0
    subst h1
    simp [ndc]
  · exact covers_unit_square

theorem strip_topology_witness :
    (drawIndices .GL_TRIANGLE_STRIP 0 4)[1]? = some ((1 : ℤ), (2 : ℤ), (3 : ℤ)) ∧
    ∃ t ∈ drawPrimitives .GL_TRIANGLE_STRIP 0 4, covers t (1 / 2, 3 / 4) :=
  ⟨((strip_topology.1 0 4 (by decide)).2 1 (by decide)),
   (strip_topology.2.2.2.2 (1 / 2) (3 / 4)).mp (by norm_num)⟩

end BufferFree
